import Mathlib

/-!
# Verification of the souvenir-notifier polling/diff/notify loop

Shallow embedding of the reconciliation core of the souvenir-notifier
repository.  The embedding follows the most complete script version
(`src/unnamed/part_003`, whose `run` is identical to `part_004`'s and agrees
on the reconciliation logic with `src/souvenir-notifier.js`):

* `REGEX_NAME = /(.*?) (\d{4}) (.*?) Souvenir Package$/` is embedded as
  `souvenirExec` (leftmost, lazy, end-anchored match on the character list);
* `REGEX_MATCH = /^It was dropped during the (.*?) match between (.*?) and (.*?),/`
  is embedded as `matchExec` (start-anchored, lazy groups with backtracking);
* `getAssetId` is the linear scan over the asset records;
* `getItemPrice` substitutes the sentinel "0" when the price API reports
  `success: false`;
* `run` (one account's callback) is embedded as `runAccount`; the whole
  per-cycle loop over users is `runCycle`.

State persistence: within one account's callback, `saveData` is only reached
from the notification callback (after a successful payload build), from the
baseline ("already had") branch, and from the `!anyItems` branch.  At
quiescence of a cycle the file therefore holds the reassigned entry exactly
when one of those save points fired; otherwise the file keeps its prior
contents.  `runAccount` returns that quiescent file as its `store`.

JavaScript `undefined` flowing out of `getAssetId` is modelled with
`Option String`; its coercion to the string "undefined" (as an object key and
inside the URL template) is `assetKey`.

The crash in the source when `getMatchInfo` returns `null` and the payload
build dereferences `matchInfo.team1` (a `TypeError`) is modelled by recording
the item in a `crashes` list; no dispatch and no save happen for such an item.
-/

/-- One entry of `response.descriptions` from the inventory API: the fields
the reconciliation reads (`name`, `market_hash_name`, `classid`,
`instanceid`) plus the `.value` strings of the item's `descriptions` lines
(read by `getMatchInfo`). -/
structure ItemDesc where
  name : String
  market_hash_name : String
  classid : String
  instanceid : String
  descriptions : List String
deriving DecidableEq

/-- One entry of `response.assets`: correlates a `(classid, instanceid)` pair
with a concrete owned-item `assetid`. -/
structure Asset where
  classid : String
  instanceid : String
  assetid : String
deriving DecidableEq

/-- A parsed inventory response: `descriptions` and `assets`. -/
structure Inventory where
  descriptions : List ItemDesc
  assets : List Asset
deriving DecidableEq

/-- A user entry as consumed by `run`: `steam_id`, `username` and the list of
delivery tokens `keys`. -/
structure SteamUser where
  steam_id : String
  username : String
  keys : List String
deriving DecidableEq

/-- The data payload of one `sendFirebaseMessage` call. -/
structure Payload where
  username : String
  price : String
  team1 : String
  team2 : String
  event : String
  year : String
  map : String
  url : String
deriving DecidableEq

/-- One notification dispatch call: the delivery token and the payload. -/
structure Dispatch where
  key : String
  data : Payload
deriving DecidableEq

/-- The `tier`/`team1`/`team2` record returned by `getMatchInfo`. -/
structure MatchInfo where
  tier : String
  team1 : String
  team2 : String
deriving DecidableEq

/-- Log events the cycle emits (only the ones claims refer to). -/
inductive LogEvent where
  | warning (text : String)
  | error (text : String)
deriving DecidableEq

/-- `true` exactly on warning-level log events. -/
def LogEvent.isWarning : LogEvent → Bool
  | .warning _ => true
  | .error _ => false

/-- Outcome of the price API call, as seen after JSON parsing: either
`success: true` with a `lowest_price`, or `success: false`. -/
inductive PriceResult where
  | ok (lowest_price : String)
  | fail
deriving DecidableEq

/-- `getItemPrice` (src/souvenir-notifier.js lines 56-78, identical in
part_000/001/003/004): on `success` pass `lowest_price` to the callback,
otherwise pass the sentinel "0". -/
def getItemPrice : PriceResult → String
  | .ok p => p
  | .fail => "0"

/-- Outcome of one inventory fetch, as seen by the fetch callback:
`parsed inv` when the body parses to an object, `parsedNull` when the body is
the JSON literal `null` (private inventory), `unparsable body` when
`JSON.parse(body)` throws (network error or malformed payload; the callback
is then never invoked and `"Error: " + body` is logged). -/
inductive FetchResult where
  | parsed (inv : Inventory)
  | parsedNull
  | unparsable (body : String)

/-- Characters matched by `.` in a JavaScript regex without the `s` flag:
everything except `\n`, `\r`, ` `, ` `. -/
def isDotChar (c : Char) : Bool :=
  !(c = '\n' || c = '\r' || c.toNat = 0x2028 || c.toNat = 0x2029)

/-- The literal trailing text of `REGEX_NAME`, `" Souvenir Package"`. -/
def tailLit : List Char := (" Souvenir Package").data

/-- End-anchored tail of `REGEX_NAME` after the year and its space:
`l` must be `g3 ++ " Souvenir Package"` with `g3` matched by `(.*?)`.
The `$` anchor makes the split unique, so laziness plays no role here. -/
def splitTailLit (l : List Char) : Option (List Char) :=
  let n := l.length - tailLit.length
  if tailLit.length ≤ l.length ∧ l.drop n = tailLit ∧ (l.take n).all isDotChar = true then
    some (l.take n)
  else
    none

/-- After group 1 and its separating space, `REGEX_NAME` expects
`(\d{4}) (.*?) Souvenir Package$`.  Returns the year and third capture. -/
def souvenirTail : List Char → Option (List Char × List Char)
  | d1 :: d2 :: d3 :: d4 :: c :: rest =>
    if d1.isDigit && d2.isDigit && d3.isDigit && d4.isDigit && c = ' ' then
      match splitTailLit rest with
      | some g3 => some ([d1, d2, d3, d4], g3)
      | none => none
    else
      none
  | _ => none

/-- Scanner for `REGEX_NAME = /(.*?) (\d{4}) (.*?) Souvenir Package$/` with
JavaScript `exec` semantics: leftmost match, lazy first group.  At each
position we first try to close group 1 at a space (lazy), fall back to
extending it through any `.`-matched character, and restart the search after
a character `.` cannot match. -/
def souvenirAux (g1rev : List Char) : List Char → Option (String × String × String)
  | [] => none
  | c :: rest =>
    if c = ' ' then
      match souvenirTail rest with
      | some (y, g3) => some (String.mk g1rev.reverse, String.mk y, String.mk g3)
      | none => souvenirAux (c :: g1rev) rest
    else if isDotChar c then
      souvenirAux (c :: g1rev) rest
    else
      souvenirAux [] rest

/-- `REGEX_NAME.exec(name)` (src/souvenir-notifier.js line 17, identical in
part_000/001/003/004): `some (event, year, location)` on a match, `none`
otherwise. -/
def souvenirExec (name : String) : Option (String × String × String) :=
  souvenirAux [] name.data

/-- Strips a literal off the front of a character list. -/
def stripPre : List Char → List Char → Option (List Char)
  | [], l => some l
  | _ :: _, [] => none
  | p :: ps, c :: cs => if p = c then stripPre ps cs else none

/-- Third group of `REGEX_MATCH`: `(.*?),` — lazily scan to the first comma
reachable through `.`-matched characters. -/
def findCommaAux (g3rev : List Char) : List Char → Option (List Char)
  | [] => none
  | c :: rest =>
    if c = ',' then
      some g3rev.reverse
    else if isDotChar c then
      findCommaAux (c :: g3rev) rest
    else
      none

/-- Second and third groups of `REGEX_MATCH`: `(.*?) and (.*?),` with lazy
backtracking — at each position first try the literal `" and "`, and on an
inner failure extend group 2 by one `.`-matched character. -/
def matchTeams (g2rev : List Char) : List Char → Option (List Char × List Char)
  | [] => none
  | c :: rest =>
    match stripPre (" and ").data (c :: rest) with
    | some after =>
      match findCommaAux [] after with
      | some g3 => some (g2rev.reverse, g3)
      | none => if isDotChar c then matchTeams (c :: g2rev) rest else none
    | none => if isDotChar c then matchTeams (c :: g2rev) rest else none

/-- First group of `REGEX_MATCH`: `(.*?) match between ...` with the same
lazy backtracking scheme. -/
def matchTier (g1rev : List Char) : List Char → Option (List Char × List Char × List Char)
  | [] => none
  | c :: rest =>
    match stripPre (" match between ").data (c :: rest) with
    | some after =>
      match matchTeams [] after with
      | some (g2, g3) => some (g1rev.reverse, g2, g3)
      | none => if isDotChar c then matchTier (c :: g1rev) rest else none
    | none => if isDotChar c then matchTier (c :: g1rev) rest else none

/-- `REGEX_MATCH.exec(value)` for
`/^It was dropped during the (.*?) match between (.*?) and (.*?),/`
(src/souvenir-notifier.js line 18): start-anchored. -/
def matchExec (value : String) : Option MatchInfo :=
  match stripPre ("It was dropped during the ").data value.data with
  | none => none
  | some after =>
    match matchTier [] after with
    | some (t, a, b) => some ⟨String.mk t, String.mk a, String.mk b⟩
    | none => none

/-- `getMatchInfo` (src/souvenir-notifier.js lines 286-302, identical in
part_001/003/004): first descriptor line matching `REGEX_MATCH`, else the
JavaScript `null`, modelled as `none`. -/
def getMatchInfo : List String → Option MatchInfo
  | [] => none
  | d :: rest =>
    match matchExec d with
    | some mi => some mi
    | none => getMatchInfo rest

/-- `getAssetId` (src/souvenir-notifier.js lines 277-284, identical in
part_000/001/003/004): the `assetid` of the first asset whose `instanceid`
and `classid` both agree; JavaScript `undefined` (no `return` reached) is
`none`. -/
def getAssetId (assets : List Asset) (classid instanceid : String) : Option String :=
  (assets.find? (fun a => a.instanceid = instanceid && a.classid = classid)).map (·.assetid)

/-- JavaScript string coercion of the possibly-`undefined` asset id, as it
happens when the value is used as an object key (`data[userId][assetId]`)
and inside the URL template (`"...#730_2_" + assetId`). -/
def assetKey : Option String → String
  | some s => s
  | none => "undefined"

/-- The asset id string a description entry ends up keyed under. -/
def derivedId (assets : List Asset) (it : ItemDesc) : String :=
  assetKey (getAssetId assets it.classid it.instanceid)

/-- The deep-link URL built for a notification:
`"https://steamcommunity.com/profiles/" + userId + "/inventory#730_2_" + assetId`. -/
def profileUrl (userId assetId : String) : String :=
  "https://steamcommunity.com/profiles/" ++ userId ++ "/inventory#730_2_" ++ assetId

/-- The persisted state document: account id to the list of seen asset ids
(`files/data.json`).  JSON object keys are unique, which `storeSet`
maintains. -/
def Store : Type := List (String × List String)

instance : DecidableEq Store := by
  unfold Store
  infer_instance

/-- Lookup of `data[userId]`: `none` models JavaScript `undefined`. -/
def storeFind : Store → String → Option (List String)
  | [], _ => none
  | (k, v) :: rest, key => if k = key then some v else storeFind rest key

/-- Functional update `data[userId] = entry`. -/
def storeSet : Store → String → List String → Store
  | [], key, entry => [(key, entry)]
  | (k, v) :: rest, key, entry =>
    if k = key then (key, entry) :: rest else (k, v) :: storeSet rest key entry

/-- Accumulated effects of the item loop inside one account's fetch
callback. -/
structure ItemsAcc where
  entry : List String
  newIds : List String
  dispatches : List Dispatch
  crashes : List String
  savedAny : Bool
deriving DecidableEq

/-- Pointwise concatenation of loop effects. -/
def accAppend (a b : ItemsAcc) : ItemsAcc :=
  ⟨a.entry ++ b.entry, a.newIds ++ b.newIds, a.dispatches ++ b.dispatches,
   a.crashes ++ b.crashes, a.savedAny || b.savedAny⟩

/-- Effects of one iteration of the item loop in `run`
(src/unnamed/part_003 lines 183-232; src/souvenir-notifier.js lines 102-149
agrees with `keys = [key]`):

* no name match: nothing happens;
* name match: the id is pushed onto `data[userId]`; if it is absent from the
  saved items then on a known account the payload is built (crashing with a
  `TypeError` when `getMatchInfo` returned `null`, in which case nothing is
  dispatched and `saveData` is not reached) and otherwise one
  `sendFirebaseMessage` per token is made followed by `saveData`; on a new
  account the "already had, not notifying" branch runs `saveData`. -/
def itemContrib (u : SteamUser) (priceOf : String → PriceResult) (assets : List Asset)
    (savedItems : List String) (newUser : Bool) (item : ItemDesc) : ItemsAcc :=
  match souvenirExec item.name with
  | none => ⟨[], [], [], [], false⟩
  | some (ev, yr, mp) =>
    let assetId := derivedId assets item
    if assetId ∈ savedItems then
      ⟨[assetId], [], [], [], false⟩
    else if newUser then
      ⟨[assetId], [assetId], [], [], true⟩
    else
      match getMatchInfo item.descriptions with
      | none => ⟨[assetId], [assetId], [], [item.name], false⟩
      | some mi =>
        ⟨[assetId], [assetId],
         u.keys.map (fun k =>
           ⟨k, { username := u.username,
                 price := getItemPrice (priceOf item.market_hash_name),
                 team1 := mi.team1, team2 := mi.team2,
                 event := ev, year := yr, map := mp,
                 url := profileUrl u.steam_id assetId }⟩),
         [], true⟩

/-- The item loop of `run`, iterating `response.descriptions` in order. -/
def processItems (u : SteamUser) (priceOf : String → PriceResult) (assets : List Asset)
    (savedItems : List String) (newUser : Bool) : List ItemDesc → ItemsAcc
  | [] => ⟨[], [], [], [], false⟩
  | item :: rest =>
    accAppend (itemContrib u priceOf assets savedItems newUser item)
      (processItems u priceOf assets savedItems newUser rest)

/-- Observable outcome of one account's part of a cycle. -/
structure AccountOutcome where
  store : Store
  newIds : List String
  dispatches : List Dispatch
  crashes : List String
  logs : List LogEvent
deriving DecidableEq

/-- One account's part of `run` (src/unnamed/part_003 lines 158-239):

* `unparsable`: the fetch callback never runs, `"Error: " + body` is logged;
* `parsedNull`: the callback returns early after logging the
  private-inventory warning that names the account;
* `parsed`: `newUser` is `data[userId] === undefined`; `savedItems` defaults
  to empty; the loop runs; the quiescent save file holds the reassigned
  entry exactly when some save point fired (a notified item, a baseline
  item, or the `!anyItems` save), else it is untouched. -/
def runAccount (priceOf : String → PriceResult) (fetchOf : String → FetchResult)
    (data : Store) (u : SteamUser) : AccountOutcome :=
  match fetchOf u.steam_id with
  | .unparsable body => ⟨data, [], [], [], [.error ("Error: " ++ body)]⟩
  | .parsedNull =>
    ⟨data, [], [], [],
     [.warning ("Warning: Failed to fetch inventory for " ++ u.username ++
       ", it might be set to private")]⟩
  | .parsed inv =>
    let savedItems := (storeFind data u.steam_id).getD []
    let acc := processItems u priceOf inv.assets savedItems
      (storeFind data u.steam_id).isNone inv.descriptions
    let saved := acc.savedAny || acc.entry.isEmpty
    ⟨if saved then storeSet data u.steam_id acc.entry else data,
     acc.newIds, acc.dispatches, acc.crashes, []⟩

/-- One full cycle: the `for (let k in users)` loop of `run`, each account's
callback touching only its own entry of the shared document. -/
def runCycle (priceOf : String → PriceResult) (fetchOf : String → FetchResult)
    (data : Store) : List SteamUser → Store × List AccountOutcome
  | [] => (data, [])
  | u :: rest =>
    let o := runAccount priceOf fetchOf data u
    let (d, os) := runCycle priceOf fetchOf o.store rest
    (d, o :: os)

/-- The ids the cycle's classifier admits, in response order: the derived ids
of the descriptions whose name matches `REGEX_NAME`. -/
def matchedDerivedIds (inv : Inventory) : List String :=
  (inv.descriptions.filter (fun it => (souvenirExec it.name).isSome)).map
    (derivedId inv.assets)

/-- Accumulates the decimal value of leading digits, stopping at the first
non-digit, as JavaScript `parseInt` does. -/
def jsParseIntAux (acc : Nat) : List Char → Nat
  | [] => acc
  | c :: rest =>
    if c.isDigit then jsParseIntAux (acc * 10 + (c.toNat - 48)) rest else acc

/-- JavaScript `parseInt` on a plain decimal string: `none` models `NaN`
(empty input or a leading non-digit). -/
def jsParseInt (s : String) : Option Nat :=
  match s.data with
  | [] => none
  | c :: rest =>
    if c.isDigit then some (jsParseIntAux (c.toNat - 48) rest) else none

/-- `part_002`'s alternative id derivation (src/unnamed/part_002 line 117):
`parseInt(classid + instanceid).toString(16)`; a non-numeric concatenation
gives the string `"NaN"`. -/
def hashItemId (classid instanceid : String) : String :=
  match jsParseInt (classid ++ instanceid) with
  | some n => String.mk (Nat.toDigits 16 n)
  | none => "NaN"

/-! ## Basic lemmas about the store and strings -/

theorem storeFind_storeSet_self (d : Store) (k : String) (v : List String) :
    storeFind (storeSet d k v) k = some v := by
  induction d with
  | nil => simp [storeSet, storeFind]
  | cons p rest ih =>
    obtain ⟨k', v'⟩ := p
    by_cases h : k' = k <;> simp [storeSet, storeFind, h, ih]

theorem storeFind_storeSet_other (d : Store) (k k' : String) (v : List String)
    (h : k' ≠ k) : storeFind (storeSet d k v) k' = storeFind d k' := by
  induction d with
  | nil => simp [storeSet, storeFind, Ne.symm h]
  | cons p rest ih =>
    obtain ⟨k0, v0⟩ := p
    by_cases h0 : k0 = k
    · subst h0
      simp only [storeSet, if_pos rfl, storeFind, if_neg (Ne.symm h), if_neg h]
    · simp only [storeSet, if_neg h0, storeFind]
      by_cases h1 : k0 = k' <;> simp [h1, ih]

theorem storeSet_storeSet (d : Store) (k : String) (v w : List String) :
    storeSet (storeSet d k v) k w = storeSet d k w := by
  induction d with
  | nil => simp [storeSet]
  | cons p rest ih =>
    obtain ⟨k0, v0⟩ := p
    by_cases h0 : k0 = k <;> simp [storeSet, h0, ih]

theorem string_append_cancel_left {s a b : String} (h : s ++ a = s ++ b) : a = b := by
  have hd : (s ++ a).data = (s ++ b).data := by rw [h]
  simp only [String.data_append] at hd
  have h2 := List.append_cancel_left hd
  cases a
  cases b
  simp_all

theorem profileUrl_inj {uid a b : String} (h : profileUrl uid a = profileUrl uid b) :
    a = b := by
  unfold profileUrl at h
  exact string_append_cancel_left h

theorem nodup_map_mem_inj {α β : Type} {f : α → β} {l : List α}
    (hnd : (l.map f).Nodup) {a b : α} (ha : a ∈ l) (hb : b ∈ l) (hf : f a = f b) :
    a = b := by
  induction l with
  | nil => cases ha
  | cons x rest ih =>
    simp only [List.map_cons, List.nodup_cons] at hnd
    rcases List.mem_cons.mp ha with rfl | ha' <;>
      rcases List.mem_cons.mp hb with rfl | hb'
    · rfl
    · have hm : f a ∈ rest.map f := by
        rw [hf]
        exact List.mem_map_of_mem f hb'
      exact absurd hm hnd.1
    · have hm : f b ∈ rest.map f := by
        rw [← hf]
        exact List.mem_map_of_mem f ha'
      exact absurd hm hnd.1
    · exact ih hnd.2 ha' hb'

/-! ## Characterization of the name matcher -/

theorem splitTailLit_some {l g3 : List Char} (h : splitTailLit l = some g3) :
    l = g3 ++ tailLit ∧ g3.all isDotChar = true := by
  simp only [splitTailLit] at h
  split at h
  · rename_i hc
    obtain ⟨h1, h2, h3⟩ := hc
    obtain rfl : l.take (l.length - tailLit.length) = g3 := by
      simpa using h
    refine ⟨?_, h3⟩
    conv_lhs => rw [← List.take_append_drop (l.length - tailLit.length) l]
    rw [h2]
  · cases h

theorem splitTailLit_append {g3 : List Char} (h : g3.all isDotChar = true) :
    splitTailLit (g3 ++ tailLit) = some g3 := by
  unfold splitTailLit
  have hn : (g3 ++ tailLit).length - tailLit.length = g3.length := by
    simp [List.length_append]
  rw [hn]
  have hdrop : (g3 ++ tailLit).drop g3.length = tailLit := List.drop_left g3 tailLit
  have htake : (g3 ++ tailLit).take g3.length = g3 := List.take_left g3 tailLit
  rw [if_pos]
  · rw [htake]
  · refine ⟨by simp [List.length_append], hdrop, ?_⟩
    rw [htake]
    exact h

theorem souvenirTail_some {r y g3 : List Char}
    (h : souvenirTail r = some (y, g3)) :
    r = y ++ ' ' :: (g3 ++ tailLit) ∧ y.length = 4 ∧ y.all Char.isDigit = true ∧
      g3.all isDotChar = true := by
  match r, h with
  | d1 :: d2 :: d3 :: d4 :: c :: rest, h => ?_
  simp only [souvenirTail] at h
  split at h
  · rename_i hc
    simp only [Bool.and_eq_true, decide_eq_true_eq] at hc
    obtain ⟨⟨⟨⟨hd1, hd2⟩, hd3⟩, hd4⟩, hsp⟩ := hc
    subst hsp
    cases hs : splitTailLit rest with
    | none => rw [hs] at h; cases h
    | some g3' =>
      rw [hs] at h
      obtain ⟨rfl, rfl⟩ : [d1, d2, d3, d4] = y ∧ g3' = g3 := by
        simpa using h
      obtain ⟨hrest, hall⟩ := splitTailLit_some hs
      subst hrest
      simp [hd1, hd2, hd3, hd4, hall]
  · cases h

theorem souvenirTail_append {y g3 : List Char} (hy : y.length = 4)
    (hyd : y.all Char.isDigit = true) (hg3 : g3.all isDotChar = true) :
    souvenirTail (y ++ ' ' :: (g3 ++ tailLit)) = some (y, g3) := by
  match y, hy with
  | [d1, d2, d3, d4], _ => ?_
  simp only [List.all_cons, List.all_nil, Bool.and_eq_true, Bool.and_true] at hyd
  obtain ⟨h1, h2, h3, h4⟩ := hyd
  simp only [List.cons_append, List.nil_append, souvenirTail, h1, h2, h3, h4,
    Bool.and_self, Bool.true_and, decide_True, if_pos, splitTailLit_append hg3]

theorem souvenirAux_some_decomp {l : List Char} :
    ∀ {g1rev : List Char}, (souvenirAux g1rev l).isSome = true →
      ∃ p y g3 : List Char, l = p ++ ' ' :: (y ++ ' ' :: (g3 ++ tailLit)) ∧
        y.length = 4 ∧ y.all Char.isDigit = true ∧ g3.all isDotChar = true := by
  induction l with
  | nil => intro g1rev h; simp [souvenirAux] at h
  | cons c rest ih =>
    intro g1rev h
    simp only [souvenirAux] at h
    by_cases hsp : c = ' '
    · rw [if_pos hsp] at h
      subst hsp
      cases ht : souvenirTail rest with
      | some pr =>
        obtain ⟨y, g3⟩ := pr
        obtain ⟨hr, hy, hyd, hg3⟩ := souvenirTail_some ht
        exact ⟨[], y, g3, by simp [hr], hy, hyd, hg3⟩
      | none =>
        rw [ht] at h
        obtain ⟨p, y, g3, hr, hrest⟩ := ih h
        exact ⟨' ' :: p, y, g3, by simp [hr], hrest⟩
    · rw [if_neg hsp] at h
      by_cases hd : isDotChar c = true
      · rw [if_pos hd] at h
        obtain ⟨p, y, g3, hr, hrest⟩ := ih h
        exact ⟨c :: p, y, g3, by simp [hr], hrest⟩
      · rw [if_neg hd] at h
        obtain ⟨p, y, g3, hr, hrest⟩ := ih h
        exact ⟨c :: p, y, g3, by simp [hr], hrest⟩

theorem souvenirAux_decomp_some {p y g3 : List Char} (hy : y.length = 4)
    (hyd : y.all Char.isDigit = true) (hg3 : g3.all isDotChar = true) :
    ∀ g1rev : List Char,
      (souvenirAux g1rev (p ++ ' ' :: (y ++ ' ' :: (g3 ++ tailLit)))).isSome = true := by
  induction p with
  | nil =>
    intro g1rev
    simp [souvenirAux, souvenirTail_append hy hyd hg3]
  | cons c p' ih =>
    intro g1rev
    simp only [List.cons_append, souvenirAux]
    by_cases hsp : c = ' '
    · rw [if_pos hsp]
      cases ht : souvenirTail (p' ++ ' ' :: (y ++ ' ' :: (g3 ++ tailLit))) with
      | some pr => simp
      | none => exact ih _
    · rw [if_neg hsp]
      by_cases hd : isDotChar c = true
      · rw [if_pos hd]
        exact ih _
      · rw [if_neg hd]
        exact ih _

/-- The name matcher accepts exactly the names with an end-anchored
decomposition `⟨event⟩ ⟨4-digit year⟩ ⟨location⟩ Souvenir Package`. -/
theorem souvenirExec_isSome_iff (name : String) :
    (souvenirExec name).isSome = true ↔
      ∃ p y g3 : List Char, name.data = p ++ ' ' :: (y ++ ' ' :: (g3 ++ tailLit)) ∧
        y.length = 4 ∧ y.all Char.isDigit = true ∧ g3.all isDotChar = true := by
  constructor
  · exact fun h => souvenirAux_some_decomp h
  · rintro ⟨p, y, g3, hd, hy, hyd, hg3⟩
    unfold souvenirExec
    rw [hd]
    exact souvenirAux_decomp_some hy hyd hg3 []

/-- Every accepted name ends with the literal `" Souvenir Package"`: the
match is anchored at the end of the name. -/
theorem souvenirExec_isSome_suffix {name : String}
    (h : (souvenirExec name).isSome = true) : tailLit <:+ name.data := by
  obtain ⟨p, y, g3, hd, -⟩ := (souvenirExec_isSome_iff name).mp h
  refine ⟨p ++ ' ' :: (y ++ ' ' :: g3), ?_⟩
  rw [hd]
  simp

/-! ## Characterization of the item loop -/

/-- The dispatch calls one item produces on a known account when its id is
new: one per token, with the price from `getItemPrice` and the deep-link URL;
empty when the name does not match or the payload build crashes. -/
def mkDispatches (u : SteamUser) (priceOf : String → PriceResult) (assets : List Asset)
    (item : ItemDesc) : List Dispatch :=
  match souvenirExec item.name, getMatchInfo item.descriptions with
  | some (ev, yr, mp), some mi =>
    u.keys.map (fun k =>
      ⟨k, { username := u.username,
            price := getItemPrice (priceOf item.market_hash_name),
            team1 := mi.team1, team2 := mi.team2,
            event := ev, year := yr, map := mp,
            url := profileUrl u.steam_id (derivedId assets item) }⟩)
  | _, _ => []

theorem processItems_entry (u : SteamUser) (priceOf : String → PriceResult)
    (assets : List Asset) (savedItems : List String) (newUser : Bool)
    (items : List ItemDesc) :
    (processItems u priceOf assets savedItems newUser items).entry =
      (items.filter (fun it => (souvenirExec it.name).isSome)).map (derivedId assets) := by
  induction items with
  | nil => rfl
  | cons item rest ih =>
    simp only [processItems, accAppend, List.filter_cons]
    cases h : souvenirExec item.name with
    | none => simpa [itemContrib, h] using ih
    | some g =>
      obtain ⟨ev, yr, mp⟩ := g
      by_cases hmem : derivedId assets item ∈ savedItems
      · simpa [itemContrib, h, hmem] using ih
      · cases newUser
        · cases hmi : getMatchInfo item.descriptions <;>
            simpa [itemContrib, h, hmem, hmi] using ih
        · simpa [itemContrib, h, hmem] using ih

theorem processItems_newIds (u : SteamUser) (priceOf : String → PriceResult)
    (assets : List Asset) (savedItems : List String) (newUser : Bool)
    (items : List ItemDesc) :
    (processItems u priceOf assets savedItems newUser items).newIds =
      (items.filter (fun it =>
        (souvenirExec it.name).isSome && !(decide (derivedId assets it ∈ savedItems)))).map
        (derivedId assets) := by
  induction items with
  | nil => rfl
  | cons item rest ih =>
    simp only [processItems, accAppend, List.filter_cons]
    cases h : souvenirExec item.name with
    | none => simpa [itemContrib, h] using ih
    | some g =>
      obtain ⟨ev, yr, mp⟩ := g
      by_cases hmem : derivedId assets item ∈ savedItems
      · simpa [itemContrib, h, hmem] using ih
      · cases newUser
        · cases hmi : getMatchInfo item.descriptions <;>
            simpa [itemContrib, h, hmem, hmi] using ih
        · simpa [itemContrib, h, hmem] using ih

theorem processItems_dispatches_newUser (u : SteamUser) (priceOf : String → PriceResult)
    (assets : List Asset) (savedItems : List String) (items : List ItemDesc) :
    (processItems u priceOf assets savedItems true items).dispatches = [] := by
  induction items with
  | nil => rfl
  | cons item rest ih =>
    simp only [processItems, accAppend]
    cases h : souvenirExec item.name with
    | none => simpa [itemContrib, h] using ih
    | some g =>
      obtain ⟨ev, yr, mp⟩ := g
      by_cases hmem : derivedId assets item ∈ savedItems <;>
        simpa [itemContrib, h, hmem] using ih

theorem processItems_dispatches (u : SteamUser) (priceOf : String → PriceResult)
    (assets : List Asset) (savedItems : List String) (items : List ItemDesc) :
    (processItems u priceOf assets savedItems false items).dispatches =
      (items.filter (fun it =>
        (souvenirExec it.name).isSome && !(decide (derivedId assets it ∈ savedItems)))).flatMap
        (mkDispatches u priceOf assets) := by
  induction items with
  | nil => rfl
  | cons item rest ih =>
    simp only [processItems, accAppend, List.filter_cons]
    cases h : souvenirExec item.name with
    | none => simpa [itemContrib, h] using ih
    | some g =>
      obtain ⟨ev, yr, mp⟩ := g
      by_cases hmem : derivedId assets item ∈ savedItems
      · simpa [itemContrib, h, hmem] using ih
      · cases hmi : getMatchInfo item.descriptions <;>
          simpa [itemContrib, mkDispatches, h, hmem, hmi] using ih

theorem processItems_crashes_newUser (u : SteamUser) (priceOf : String → PriceResult)
    (assets : List Asset) (savedItems : List String) (items : List ItemDesc) :
    (processItems u priceOf assets savedItems true items).crashes = [] := by
  induction items with
  | nil => rfl
  | cons item rest ih =>
    simp only [processItems, accAppend]
    cases h : souvenirExec item.name with
    | none => simpa [itemContrib, h] using ih
    | some g =>
      obtain ⟨ev, yr, mp⟩ := g
      by_cases hmem : derivedId assets item ∈ savedItems <;>
        simpa [itemContrib, h, hmem] using ih

theorem processItems_savedAny (u : SteamUser) (priceOf : String → PriceResult)
    (assets : List Asset) (savedItems : List String) (newUser : Bool)
    (items : List ItemDesc) :
    (processItems u priceOf assets savedItems newUser items).savedAny =
      items.any (fun it =>
        (souvenirExec it.name).isSome && !(decide (derivedId assets it ∈ savedItems)) &&
          (newUser || (getMatchInfo it.descriptions).isSome)) := by
  induction items with
  | nil => rfl
  | cons item rest ih =>
    simp only [processItems, accAppend, List.any_cons]
    cases h : souvenirExec item.name with
    | none => simpa [itemContrib, h] using ih
    | some g =>
      obtain ⟨ev, yr, mp⟩ := g
      by_cases hmem : derivedId assets item ∈ savedItems
      · simpa [itemContrib, h, hmem] using ih
      · cases newUser
        · cases hmi : getMatchInfo item.descriptions <;>
            simp [itemContrib, h, hmem, hmi, ih]
        · simp [itemContrib, h, hmem, ih]

theorem mkDispatches_mem_url {u : SteamUser} {priceOf : String → PriceResult}
    {assets : List Asset} {item : ItemDesc} {d : Dispatch}
    (hd : d ∈ mkDispatches u priceOf assets item) :
    d.data.url = profileUrl u.steam_id (derivedId assets item) := by
  unfold mkDispatches at hd
  split at hd
  · obtain ⟨k, -, rfl⟩ := List.mem_map.mp hd
    rfl
  · cases hd

theorem mkDispatches_mem_price {u : SteamUser} {priceOf : String → PriceResult}
    {assets : List Asset} {item : ItemDesc} {d : Dispatch}
    (hd : d ∈ mkDispatches u priceOf assets item) :
    d.data.price = getItemPrice (priceOf item.market_hash_name) := by
  unfold mkDispatches at hd
  split at hd
  · obtain ⟨k, -, rfl⟩ := List.mem_map.mp hd
    rfl
  · cases hd

theorem mkDispatches_length {u : SteamUser} {priceOf : String → PriceResult}
    {assets : List Asset} {item : ItemDesc}
    (hm : (souvenirExec item.name).isSome = true)
    (hmi : (getMatchInfo item.descriptions).isSome = true) :
    (mkDispatches u priceOf assets item).length = u.keys.length := by
  obtain ⟨⟨ev, yr, mp⟩, he⟩ := Option.isSome_iff_exists.mp hm
  obtain ⟨mi, hie⟩ := Option.isSome_iff_exists.mp hmi
  simp [mkDispatches, he, hie]

theorem flatMap_const_length {α β : Type} (f : α → List β) (n : Nat) :
    ∀ l : List α, (∀ a ∈ l, (f a).length = n) → (l.flatMap f).length = l.length * n := by
  intro l h
  induction l with
  | nil => simp
  | cons a rest ih =>
    have ha := h a (List.mem_cons_self a rest)
    have hrest := ih (fun b hb => h b (List.mem_cons_of_mem a hb))
    simp [List.flatMap_cons, ha, hrest, Nat.succ_mul, Nat.add_comm]

/-- Among the dispatch blocks of a list of items with pairwise-distinct
derived ids, the block of the one item carrying a given id is recovered
exactly by filtering on the deep-link URL. -/
theorem flatMap_filter_url (u : SteamUser) (priceOf : String → PriceResult)
    (assets : List Asset) (id : String) :
    ∀ l : List ItemDesc, (l.map (derivedId assets)).Nodup →
      ∀ it0 ∈ l, derivedId assets it0 = id →
        ((l.flatMap (mkDispatches u priceOf assets)).filter
            (fun d => decide (d.data.url = profileUrl u.steam_id id))).length =
          (mkDispatches u priceOf assets it0).length := by
  intro l
  induction l with
  | nil => intro _ it0 h0; cases h0
  | cons it rest ih =>
    intro hnd it0 hit0 hid
    simp only [List.map_cons, List.nodup_cons] at hnd
    rw [List.flatMap_cons, List.filter_append]
    by_cases hsame : derivedId assets it = id
    · have hit0eq : it0 = it := by
        rcases List.mem_cons.mp hit0 with rfl | hmem
        · rfl
        · exfalso
          apply hnd.1
          rw [hsame, ← hid]
          exact List.mem_map_of_mem (derivedId assets) hmem
      subst hit0eq
      have h1 : (mkDispatches u priceOf assets it0).filter
          (fun d => decide (d.data.url = profileUrl u.steam_id id)) =
          mkDispatches u priceOf assets it0 := by
        rw [List.filter_eq_self]
        intro d hd
        simp [mkDispatches_mem_url hd, hid]
      have h2 : (rest.flatMap (mkDispatches u priceOf assets)).filter
          (fun d => decide (d.data.url = profileUrl u.steam_id id)) = [] := by
        rw [List.filter_eq_nil_iff]
        intro d hd
        obtain ⟨it', hit', hd'⟩ := List.mem_flatMap.mp hd
        have hurl := mkDispatches_mem_url hd'
        have hne : derivedId assets it' ≠ id := by
          intro he
          apply hnd.1
          rw [hid, ← he]
          exact List.mem_map_of_mem (derivedId assets) hit'
        simp only [decide_eq_true_eq, hurl]
        intro hcon
        exact hne (profileUrl_inj hcon)
      rw [h1, h2, List.append_nil]
    · have h1 : (mkDispatches u priceOf assets it).filter
          (fun d => decide (d.data.url = profileUrl u.steam_id id)) = [] := by
        rw [List.filter_eq_nil_iff]
        intro d hd
        have hurl := mkDispatches_mem_url hd
        simp only [decide_eq_true_eq, hurl]
        intro hcon
        exact hsame (profileUrl_inj hcon)
      have hit0' : it0 ∈ rest := by
        rcases List.mem_cons.mp hit0 with rfl | hmem
        · exact absurd hid hsame
        · exact hmem
      rw [h1, List.nil_append]
      exact ih hnd.2 it0 hit0' hid

/-! ## Claim theorems -/

/-- The item-loop accumulator one successful fetch produces inside
`runAccount`. -/
def accOf (priceOf : String → PriceResult) (data : Store) (u : SteamUser)
    (inv : Inventory) : ItemsAcc :=
  processItems u priceOf inv.assets ((storeFind data u.steam_id).getD [])
    (storeFind data u.steam_id).isNone inv.descriptions

theorem runAccount_parsed {priceOf : String → PriceResult} {fetchOf : String → FetchResult}
    {data : Store} {u : SteamUser} {inv : Inventory}
    (hfetch : fetchOf u.steam_id = FetchResult.parsed inv) :
    runAccount priceOf fetchOf data u =
      ⟨if (accOf priceOf data u inv).savedAny || (accOf priceOf data u inv).entry.isEmpty
          then storeSet data u.steam_id (accOf priceOf data u inv).entry
          else data,
        (accOf priceOf data u inv).newIds, (accOf priceOf data u inv).dispatches,
        (accOf priceOf data u inv).crashes, []⟩ := by
  simp [runAccount, accOf, hfetch]

/-- On a successful fetch, a save point always fires for an account that was
absent from the store: every matched item takes the baseline branch, and an
empty match list triggers the `!anyItems` save. -/
theorem accOf_saved_of_new {priceOf : String → PriceResult} {data : Store}
    {u : SteamUser} {inv : Inventory} (hnew : storeFind data u.steam_id = none) :
    ((accOf priceOf data u inv).savedAny || (accOf priceOf data u inv).entry.isEmpty) =
      true := by
  unfold accOf
  rw [hnew]
  by_cases hm : inv.descriptions.filter (fun it => (souvenirExec it.name).isSome) = []
  · rw [Bool.or_eq_true]
    right
    rw [processItems_entry, hm]
    rfl
  · rw [Bool.or_eq_true]
    left
    rw [processItems_savedAny, List.any_eq_true]
    obtain ⟨it, hit⟩ := List.exists_mem_of_ne_nil _ hm
    obtain ⟨hmem, hsome⟩ := List.mem_filter.mp hit
    exact ⟨it, hmem, by simp [hsome]⟩

/-- C2.  For an account whose id is absent from the state store at the start
of a cycle, a successful poll dispatches no notification at all (and no
payload build is even attempted), and afterwards the persisted entry for the
account is exactly the full list of matched-item ids of this cycle's fetch. -/
theorem claim2_first_poll_baseline (priceOf : String → PriceResult)
    (fetchOf : String → FetchResult) (data : Store) (u : SteamUser) (inv : Inventory)
    (hfetch : fetchOf u.steam_id = FetchResult.parsed inv)
    (hnew : storeFind data u.steam_id = none) :
    (runAccount priceOf fetchOf data u).dispatches = [] ∧
    (runAccount priceOf fetchOf data u).crashes = [] ∧
    storeFind (runAccount priceOf fetchOf data u).store u.steam_id =
      some (matchedDerivedIds inv) := by
  rw [runAccount_parsed hfetch]
  refine ⟨?_, ?_, ?_⟩
  · show (accOf priceOf data u inv).dispatches = []
    unfold accOf
    rw [hnew]
    exact processItems_dispatches_newUser u priceOf inv.assets [] inv.descriptions
  · show (accOf priceOf data u inv).crashes = []
    unfold accOf
    rw [hnew]
    exact processItems_crashes_newUser u priceOf inv.assets [] inv.descriptions
  · show storeFind
        (if (accOf priceOf data u inv).savedAny || (accOf priceOf data u inv).entry.isEmpty
          then storeSet data u.steam_id (accOf priceOf data u inv).entry
          else data) u.steam_id = some (matchedDerivedIds inv)
    rw [if_pos (accOf_saved_of_new hnew), storeFind_storeSet_self]
    unfold accOf matchedDerivedIds
    rw [processItems_entry]

/-- Witness for C2: a brand-new account with two matched items and one
non-matching item gets no dispatch and a baseline entry of both ids. -/
theorem claim2_witness :
    (runAccount (fun _ => PriceResult.ok "1")
      (fun _ => FetchResult.parsed
        ⟨[⟨"E 2019 M Souvenir Package", "m1", "c1", "i1", []⟩,
          ⟨"E 2020 N Souvenir Package", "m2", "c2", "i2", []⟩,
          ⟨"not a package", "m3", "c3", "i3", []⟩],
         [⟨"c1", "i1", "A"⟩, ⟨"c2", "i2", "B"⟩]⟩)
      [] ⟨"7656", "alice", ["k1"]⟩).dispatches = [] ∧
    storeFind (runAccount (fun _ => PriceResult.ok "1")
      (fun _ => FetchResult.parsed
        ⟨[⟨"E 2019 M Souvenir Package", "m1", "c1", "i1", []⟩,
          ⟨"E 2020 N Souvenir Package", "m2", "c2", "i2", []⟩,
          ⟨"not a package", "m3", "c3", "i3", []⟩],
         [⟨"c1", "i1", "A"⟩, ⟨"c2", "i2", "B"⟩]⟩)
      [] ⟨"7656", "alice", ["k1"]⟩).store "7656" = some ["A", "B"] := by
  have h := claim2_first_poll_baseline (fun _ => PriceResult.ok "1")
    (fun _ => FetchResult.parsed
      ⟨[⟨"E 2019 M Souvenir Package", "m1", "c1", "i1", []⟩,
        ⟨"E 2020 N Souvenir Package", "m2", "c2", "i2", []⟩,
        ⟨"not a package", "m3", "c3", "i3", []⟩],
       [⟨"c1", "i1", "A"⟩, ⟨"c2", "i2", "B"⟩]⟩)
    [] ⟨"7656", "alice", ["k1"]⟩
    ⟨[⟨"E 2019 M Souvenir Package", "m1", "c1", "i1", []⟩,
      ⟨"E 2020 N Souvenir Package", "m2", "c2", "i2", []⟩,
      ⟨"not a package", "m3", "c3", "i3", []⟩],
     [⟨"c1", "i1", "A"⟩, ⟨"c2", "i2", "B"⟩]⟩ rfl rfl
  refine ⟨h.1, ?_⟩
  rw [h.2.2]
  have : matchedDerivedIds
      ⟨[⟨"E 2019 M Souvenir Package", "m1", "c1", "i1", []⟩,
        ⟨"E 2020 N Souvenir Package", "m2", "c2", "i2", []⟩,
        ⟨"not a package", "m3", "c3", "i3", []⟩],
       [⟨"c1", "i1", "A"⟩, ⟨"c2", "i2", "B"⟩]⟩ = ["A", "B"] := by decide
  rw [this]

/-- C1.  For an account already present in the state store, one successful
cycle reports exactly the matched ids absent from the stored entry, and —
when the derived ids of the cycle are pairwise distinct and every new item
carries a match-context line (so that the payload build does not crash) —
dispatches exactly one notification per new id for every delivery token:
the total dispatch count is `|newIds| * |keys|`, and filtering the dispatch
list by a new id's deep-link URL yields exactly one call per token. -/
theorem claim1_known_account_diff_and_fanout (priceOf : String → PriceResult)
    (fetchOf : String → FetchResult) (data : Store) (u : SteamUser) (inv : Inventory)
    (prior : List String)
    (hfetch : fetchOf u.steam_id = FetchResult.parsed inv)
    (hprior : storeFind data u.steam_id = some prior)
    (hnodup : (matchedDerivedIds inv).Nodup)
    (hmi : ∀ it ∈ inv.descriptions, (souvenirExec it.name).isSome = true →
      derivedId inv.assets it ∉ prior → (getMatchInfo it.descriptions).isSome = true) :
    (∀ id : String, id ∈ (runAccount priceOf fetchOf data u).newIds ↔
        (id ∈ matchedDerivedIds inv ∧ id ∉ prior)) ∧
    (runAccount priceOf fetchOf data u).dispatches.length =
      (runAccount priceOf fetchOf data u).newIds.length * u.keys.length ∧
    (∀ id ∈ (runAccount priceOf fetchOf data u).newIds,
      ((runAccount priceOf fetchOf data u).dispatches.filter
          (fun d => decide (d.data.url = profileUrl u.steam_id id))).length =
        u.keys.length) := by
  rw [runAccount_parsed hfetch]
  have hacc : accOf priceOf data u inv =
      processItems u priceOf inv.assets prior false inv.descriptions := by
    unfold accOf
    rw [hprior]
    rfl
  have hnew : (accOf priceOf data u inv).newIds =
      (inv.descriptions.filter (fun it =>
        (souvenirExec it.name).isSome &&
          !(decide (derivedId inv.assets it ∈ prior)))).map (derivedId inv.assets) := by
    rw [hacc, processItems_newIds]
  have hdisp : (accOf priceOf data u inv).dispatches =
      (inv.descriptions.filter (fun it =>
        (souvenirExec it.name).isSome &&
          !(decide (derivedId inv.assets it ∈ prior)))).flatMap
        (mkDispatches u priceOf inv.assets) := by
    rw [hacc, processItems_dispatches]
  have hQsub : ((inv.descriptions.filter (fun it =>
      (souvenirExec it.name).isSome &&
        !(decide (derivedId inv.assets it ∈ prior)))).map (derivedId inv.assets)).Nodup := by
    have hsplit : inv.descriptions.filter (fun it =>
        (souvenirExec it.name).isSome && !(decide (derivedId inv.assets it ∈ prior))) =
        (inv.descriptions.filter (fun it => (souvenirExec it.name).isSome)).filter
          (fun it => !(decide (derivedId inv.assets it ∈ prior))) := by
      rw [List.filter_filter]
      exact List.filter_congr (fun a _ => by rw [Bool.and_comm])
    rw [hsplit]
    exact List.Nodup.sublist
      (List.Sublist.map (derivedId inv.assets) (List.filter_sublist _)) hnodup
  have hlen : ∀ it ∈ inv.descriptions.filter (fun it =>
      (souvenirExec it.name).isSome && !(decide (derivedId inv.assets it ∈ prior))),
      (mkDispatches u priceOf inv.assets it).length = u.keys.length := by
    intro it hit
    obtain ⟨hmem, hp⟩ := List.mem_filter.mp hit
    simp only [Bool.and_eq_true, Bool.not_eq_true', decide_eq_false_iff_not] at hp
    exact mkDispatches_length hp.1 (hmi it hmem hp.1 hp.2)
  refine ⟨?_, ?_, ?_⟩
  · intro id
    show id ∈ (accOf priceOf data u inv).newIds ↔ _
    rw [hnew]
    constructor
    · intro h
      obtain ⟨it, hit, rfl⟩ := List.mem_map.mp h
      obtain ⟨hmem, hp⟩ := List.mem_filter.mp hit
      simp only [Bool.and_eq_true, Bool.not_eq_true', decide_eq_false_iff_not] at hp
      exact ⟨List.mem_map_of_mem _ (List.mem_filter.mpr ⟨hmem, hp.1⟩), hp.2⟩
    · rintro ⟨hidm, hidp⟩
      obtain ⟨it, hit, rfl⟩ := List.mem_map.mp hidm
      obtain ⟨hmem, hsome⟩ := List.mem_filter.mp hit
      refine List.mem_map_of_mem _ (List.mem_filter.mpr ⟨hmem, ?_⟩)
      simp [hsome, hidp]
  · show (accOf priceOf data u inv).dispatches.length =
      (accOf priceOf data u inv).newIds.length * u.keys.length
    rw [hnew, hdisp, List.length_map]
    exact flatMap_const_length _ _ _ hlen
  · intro id hid
    show ((accOf priceOf data u inv).dispatches.filter
        (fun d => decide (d.data.url = profileUrl u.steam_id id))).length = u.keys.length
    rw [hnew] at hid
    obtain ⟨it0, hit0, rfl⟩ := List.mem_map.mp hid
    rw [hdisp, flatMap_filter_url u priceOf inv.assets _ _ hQsub it0 hit0 rfl]
    exact hlen it0 hit0

/-- Witness for C1: a known account with stored entry `["A"]`, two delivery
tokens and an inventory matching ids `A` and `B` reports exactly `B` and
makes `1 * 2 = 2` dispatch calls, both to `B`'s deep-link URL. -/
theorem claim1_witness :
    (runAccount (fun _ => PriceResult.ok "1")
      (fun _ => FetchResult.parsed
        ⟨[⟨"E 2019 M Souvenir Package", "m1", "c1", "i1",
            ["It was dropped during the Final match between P and Q,"]⟩,
          ⟨"E 2020 N Souvenir Package", "m2", "c2", "i2",
            ["It was dropped during the Semi match between R and S,"]⟩],
         [⟨"c1", "i1", "A"⟩, ⟨"c2", "i2", "B"⟩]⟩)
      [("7656", ["A"])] ⟨"7656", "alice", ["k1", "k2"]⟩).newIds = ["B"] ∧
    (runAccount (fun _ => PriceResult.ok "1")
      (fun _ => FetchResult.parsed
        ⟨[⟨"E 2019 M Souvenir Package", "m1", "c1", "i1",
            ["It was dropped during the Final match between P and Q,"]⟩,
          ⟨"E 2020 N Souvenir Package", "m2", "c2", "i2",
            ["It was dropped during the Semi match between R and S,"]⟩],
         [⟨"c1", "i1", "A"⟩, ⟨"c2", "i2", "B"⟩]⟩)
      [("7656", ["A"])] ⟨"7656", "alice", ["k1", "k2"]⟩).dispatches.length = 2 := by
  have h := claim1_known_account_diff_and_fanout (fun _ => PriceResult.ok "1")
    (fun _ => FetchResult.parsed
      ⟨[⟨"E 2019 M Souvenir Package", "m1", "c1", "i1",
          ["It was dropped during the Final match between P and Q,"]⟩,
        ⟨"E 2020 N Souvenir Package", "m2", "c2", "i2",
          ["It was dropped during the Semi match between R and S,"]⟩],
       [⟨"c1", "i1", "A"⟩, ⟨"c2", "i2", "B"⟩]⟩)
    [("7656", ["A"])] ⟨"7656", "alice", ["k1", "k2"]⟩
    ⟨[⟨"E 2019 M Souvenir Package", "m1", "c1", "i1",
        ["It was dropped during the Final match between P and Q,"]⟩,
      ⟨"E 2020 N Souvenir Package", "m2", "c2", "i2",
        ["It was dropped during the Semi match between R and S,"]⟩],
     [⟨"c1", "i1", "A"⟩, ⟨"c2", "i2", "B"⟩]⟩
    ["A"] rfl rfl (by decide) (by decide)
  refine ⟨by decide, ?_⟩
  rw [h.2.1]
  decide

theorem storeSet_eq_self {d : Store} {k : String} {v : List String}
    (h : storeFind d k = some v) : storeSet d k v = d := by
  induction d with
  | nil => simp [storeFind] at h
  | cons p rest ih =>
    obtain ⟨k0, v0⟩ := p
    by_cases h0 : k0 = k
    · subst h0
      simp only [storeFind, if_pos, Option.some.injEq] at h
      simp [storeSet, h]
    · simp only [storeFind, if_neg h0] at h
      simp [storeSet, h0, ih h]

/-- The condition under which a save point fires inside one known account's
callback: some matched item is new and its payload build succeeds (the
notification callback's `saveData` or, on a new account, the baseline
branch), or no item matched at all (the `!anyItems` save). -/
def savedCondition (prior : List String) (inv : Inventory) : Bool :=
  inv.descriptions.any (fun it =>
    (souvenirExec it.name).isSome && !(decide (derivedId inv.assets it ∈ prior)) &&
      (getMatchInfo it.descriptions).isSome) || (matchedDerivedIds inv).isEmpty

/-- For an account already in the store, the quiescent save file after its
callback: replaced by this cycle's matched ids when a save point fired,
untouched otherwise. -/
theorem runAccount_store_known {priceOf : String → PriceResult}
    {fetchOf : String → FetchResult} {data : Store} {u : SteamUser} {inv : Inventory}
    {prior : List String}
    (hfetch : fetchOf u.steam_id = FetchResult.parsed inv)
    (hprior : storeFind data u.steam_id = some prior) :
    (runAccount priceOf fetchOf data u).store =
      if savedCondition prior inv then storeSet data u.steam_id (matchedDerivedIds inv)
      else data := by
  rw [runAccount_parsed hfetch]
  have hacc : accOf priceOf data u inv =
      processItems u priceOf inv.assets prior false inv.descriptions := by
    unfold accOf
    rw [hprior]
    rfl
  have hentry : (accOf priceOf data u inv).entry = matchedDerivedIds inv := by
    rw [hacc, processItems_entry]
    rfl
  have hsaved : ((accOf priceOf data u inv).savedAny ||
      (accOf priceOf data u inv).entry.isEmpty) = savedCondition prior inv := by
    rw [hentry, hacc, processItems_savedAny]
    unfold savedCondition
    simp only [Bool.false_or]
  show (if (accOf priceOf data u inv).savedAny || (accOf priceOf data u inv).entry.isEmpty
      then storeSet data u.steam_id (accOf priceOf data u inv).entry else data) = _
  rw [hsaved, hentry]

/-- Re-running an account whose stored entry already equals this cycle's
matched ids changes nothing: no new ids, no dispatches, same file. -/
theorem runAccount_stable_of_find {priceOf : String → PriceResult}
    {fetchOf : String → FetchResult} {d : Store} {u : SteamUser} {inv : Inventory}
    (hfetch : fetchOf u.steam_id = FetchResult.parsed inv)
    (hfind : storeFind d u.steam_id = some (matchedDerivedIds inv)) :
    (runAccount priceOf fetchOf d u).newIds = [] ∧
    (runAccount priceOf fetchOf d u).dispatches = [] ∧
    (runAccount priceOf fetchOf d u).store = d := by
  have hacc : accOf priceOf d u inv =
      processItems u priceOf inv.assets (matchedDerivedIds inv) false inv.descriptions := by
    unfold accOf
    rw [hfind]
    rfl
  have hfilter : inv.descriptions.filter (fun it =>
      (souvenirExec it.name).isSome &&
        !(decide (derivedId inv.assets it ∈ matchedDerivedIds inv))) = [] := by
    rw [List.filter_eq_nil_iff]
    intro it hit
    by_cases hs : (souvenirExec it.name).isSome = true
    · have hm : derivedId inv.assets it ∈ matchedDerivedIds inv :=
        List.mem_map_of_mem _ (List.mem_filter.mpr ⟨hit, hs⟩)
      simp [hm]
    · simp [hs]
  refine ⟨?_, ?_, ?_⟩
  · rw [runAccount_parsed hfetch]
    show (accOf priceOf d u inv).newIds = []
    rw [hacc, processItems_newIds, hfilter]
    rfl
  · rw [runAccount_parsed hfetch]
    show (accOf priceOf d u inv).dispatches = []
    rw [hacc, processItems_dispatches, hfilter]
    rfl
  · rw [runAccount_store_known hfetch hfind]
    have hany : inv.descriptions.any (fun it =>
        (souvenirExec it.name).isSome &&
          !(decide (derivedId inv.assets it ∈ matchedDerivedIds inv)) &&
          (getMatchInfo it.descriptions).isSome) = false := by
      rw [List.any_eq_false]
      intro it hit
      by_cases hs : (souvenirExec it.name).isSome = true
      · have hm : derivedId inv.assets it ∈ matchedDerivedIds inv :=
          List.mem_map_of_mem _ (List.mem_filter.mpr ⟨hit, hs⟩)
        simp [hm]
      · simp [hs]
    unfold savedCondition
    rw [hany, Bool.false_or]
    by_cases hemp : (matchedDerivedIds inv).isEmpty = true
    · rw [if_pos hemp]
      rw [List.isEmpty_iff] at hemp
      rw [hemp] at hfind ⊢
      exact storeSet_eq_self hfind
    · rw [if_neg hemp]

/-- C3 counterexample.  A known account stored as `["A", "B"]` is polled and
only the item with id `A` is matched; the cycle finds no new id, so no save
point fires and the stored entry stays `["A", "B"]` instead of the snapshot
`["A"]`: the id `B`, absent from this cycle's fetch, is *not* removed. -/
theorem claim3_counterexample :
    matchedDerivedIds
      ⟨[⟨"E 2019 M Souvenir Package", "m1", "c1", "i1", []⟩], [⟨"c1", "i1", "A"⟩]⟩ =
      ["A"] ∧
    storeFind (runAccount (fun _ => PriceResult.ok "1")
      (fun _ => FetchResult.parsed
        ⟨[⟨"E 2019 M Souvenir Package", "m1", "c1", "i1", []⟩], [⟨"c1", "i1", "A"⟩]⟩)
      [("7656", ["A", "B"])] ⟨"7656", "alice", ["k1"]⟩).store "7656" =
      some ["A", "B"] ∧
    (["A", "B"] : List String) ≠ ["A"] := by
  refine ⟨by decide, by decide, by decide⟩

/-- C3 as amended.  For a known account, the stored entry after the cycle is
exactly the cycle's matched-id snapshot whenever a save point fires — some
matched id is new with a successful payload build, or no item matched at
all; when every matched id was already stored and at least one item matched,
no save happens and the whole store (this account's entry included) keeps
its prior value, so disappeared ids are not removed by that cycle. -/
theorem claim3_amended_snapshot (priceOf : String → PriceResult)
    (fetchOf : String → FetchResult) (data : Store) (u : SteamUser) (inv : Inventory)
    (prior : List String)
    (hfetch : fetchOf u.steam_id = FetchResult.parsed inv)
    (hprior : storeFind data u.steam_id = some prior) :
    ((∃ it ∈ inv.descriptions, (souvenirExec it.name).isSome = true ∧
        derivedId inv.assets it ∉ prior ∧ (getMatchInfo it.descriptions).isSome = true) →
      storeFind (runAccount priceOf fetchOf data u).store u.steam_id =
        some (matchedDerivedIds inv)) ∧
    (matchedDerivedIds inv = [] →
      storeFind (runAccount priceOf fetchOf data u).store u.steam_id =
        some (matchedDerivedIds inv)) ∧
    ((∀ it ∈ inv.descriptions, (souvenirExec it.name).isSome = true →
        derivedId inv.assets it ∈ prior) → matchedDerivedIds inv ≠ [] →
      (runAccount priceOf fetchOf data u).store = data) := by
  rw [runAccount_store_known hfetch hprior]
  refine ⟨?_, ?_, ?_⟩
  · rintro ⟨it, hit, hs, hnp, hmi⟩
    have hc : savedCondition prior inv = true := by
      unfold savedCondition
      rw [Bool.or_eq_true, List.any_eq_true]
      exact Or.inl ⟨it, hit, by simp [hs, hnp, hmi]⟩
    rw [if_pos hc, storeFind_storeSet_self]
  · intro hemp
    have hc : savedCondition prior inv = true := by
      unfold savedCondition
      rw [Bool.or_eq_true]
      right
      rw [hemp]
      rfl
    rw [if_pos hc, storeFind_storeSet_self]
  · intro hall hne
    have hc : savedCondition prior inv = false := by
      unfold savedCondition
      rw [Bool.or_eq_false_iff]
      constructor
      · rw [List.any_eq_false]
        intro it hit
        by_cases hs : (souvenirExec it.name).isSome = true
        · simp [hall it hit hs]
        · simp [hs]
      · rw [List.isEmpty_eq_false_iff_exists_mem]
        obtain ⟨x, hx⟩ := List.exists_mem_of_ne_nil _ hne
        exact ⟨x, hx⟩
    rw [if_neg (by simp [hc])]

/-- Witness for the amended C3: in the counterexample scenario the
no-new-ids branch applies and leaves the store untouched, and in the
baseline-save scenario the snapshot is written. -/
theorem claim3_witness :
    (runAccount (fun _ => PriceResult.ok "1")
      (fun _ => FetchResult.parsed
        ⟨[⟨"E 2019 M Souvenir Package", "m1", "c1", "i1", []⟩], [⟨"c1", "i1", "A"⟩]⟩)
      [("7656", ["A", "B"])] ⟨"7656", "alice", ["k1"]⟩).store =
      [("7656", ["A", "B"])] :=
  (claim3_amended_snapshot (fun _ => PriceResult.ok "1")
    (fun _ => FetchResult.parsed
      ⟨[⟨"E 2019 M Souvenir Package", "m1", "c1", "i1", []⟩], [⟨"c1", "i1", "A"⟩]⟩)
    [("7656", ["A", "B"])] ⟨"7656", "alice", ["k1"]⟩
    ⟨[⟨"E 2019 M Souvenir Package", "m1", "c1", "i1", []⟩], [⟨"c1", "i1", "A"⟩]⟩
    ["A", "B"] rfl rfl).2.2 (by decide) (by decide)

/-- C9.  With an unchanged upstream inventory (same fetch and price
environments) and description texts that do not crash the payload build,
running an account's cycle twice is idempotent: the second run finds no new
id, dispatches nothing, and leaves the store exactly as the first run left
it. -/
theorem claim9_second_run_idempotent (priceOf : String → PriceResult)
    (fetchOf : String → FetchResult) (data : Store) (u : SteamUser) (inv : Inventory)
    (hfetch : fetchOf u.steam_id = FetchResult.parsed inv)
    (hmi : ∀ it ∈ inv.descriptions, (souvenirExec it.name).isSome = true →
      (getMatchInfo it.descriptions).isSome = true) :
    (runAccount priceOf fetchOf (runAccount priceOf fetchOf data u).store u).newIds = [] ∧
    (runAccount priceOf fetchOf (runAccount priceOf fetchOf data u).store u).dispatches
      = [] ∧
    (runAccount priceOf fetchOf (runAccount priceOf fetchOf data u).store u).store =
      (runAccount priceOf fetchOf data u).store := by
  cases hprior : storeFind data u.steam_id with
  | none =>
    have hstore1 : storeFind (runAccount priceOf fetchOf data u).store u.steam_id =
        some (matchedDerivedIds inv) :=
      (claim2_first_poll_baseline priceOf fetchOf data u inv hfetch hprior).2.2
    exact runAccount_stable_of_find hfetch hstore1
  | some prior =>
    have hk : (runAccount priceOf fetchOf data u).store =
        if savedCondition prior inv then storeSet data u.steam_id (matchedDerivedIds inv)
        else data := runAccount_store_known hfetch hprior
    by_cases hc : savedCondition prior inv = true
    · rw [if_pos hc] at hk
      have hstore1 : storeFind (runAccount priceOf fetchOf data u).store u.steam_id =
          some (matchedDerivedIds inv) := by
        rw [hk, storeFind_storeSet_self]
      exact runAccount_stable_of_find hfetch hstore1
    · rw [if_neg hc] at hk
      rw [hk]
      have hnonew : ∀ it ∈ inv.descriptions, (souvenirExec it.name).isSome = true →
          derivedId inv.assets it ∈ prior := by
        intro it hit hs
        by_contra hnp
        apply hc
        unfold savedCondition
        rw [Bool.or_eq_true, List.any_eq_true]
        exact Or.inl ⟨it, hit, by simp [hs, hnp, hmi it hit hs]⟩
      have hfilter : inv.descriptions.filter (fun it =>
          (souvenirExec it.name).isSome &&
            !(decide (derivedId inv.assets it ∈ prior))) = [] := by
        rw [List.filter_eq_nil_iff]
        intro it hit
        by_cases hs : (souvenirExec it.name).isSome = true
        · simp [hnonew it hit hs]
        · simp [hs]
      have hacc : accOf priceOf data u inv =
          processItems u priceOf inv.assets prior false inv.descriptions := by
        unfold accOf
        rw [hprior]
        rfl
      refine ⟨?_, ?_, ?_⟩
      · rw [runAccount_parsed hfetch]
        show (accOf priceOf data u inv).newIds = []
        rw [hacc, processItems_newIds, hfilter]
        rfl
      · rw [runAccount_parsed hfetch]
        show (accOf priceOf data u inv).dispatches = []
        rw [hacc, processItems_dispatches, hfilter]
        rfl
      · rw [runAccount_store_known hfetch hprior, if_neg hc]

/-- Witness for C9: a known account with one already-stored matched item;
the second run reports nothing and keeps the store of the first run. -/
theorem claim9_witness :
    (runAccount (fun _ => PriceResult.ok "1")
      (fun _ => FetchResult.parsed
        ⟨[⟨"E 2019 M Souvenir Package", "m1", "c1", "i1",
            ["It was dropped during the Final match between P and Q,"]⟩],
          [⟨"c1", "i1", "A"⟩]⟩)
      (runAccount (fun _ => PriceResult.ok "1")
        (fun _ => FetchResult.parsed
          ⟨[⟨"E 2019 M Souvenir Package", "m1", "c1", "i1",
              ["It was dropped during the Final match between P and Q,"]⟩],
            [⟨"c1", "i1", "A"⟩]⟩)
        [("7656", ["Z"])] ⟨"7656", "alice", ["k1"]⟩).store
      ⟨"7656", "alice", ["k1"]⟩).newIds = [] ∧
    (runAccount (fun _ => PriceResult.ok "1")
      (fun _ => FetchResult.parsed
        ⟨[⟨"E 2019 M Souvenir Package", "m1", "c1", "i1",
            ["It was dropped during the Final match between P and Q,"]⟩],
          [⟨"c1", "i1", "A"⟩]⟩)
      (runAccount (fun _ => PriceResult.ok "1")
        (fun _ => FetchResult.parsed
          ⟨[⟨"E 2019 M Souvenir Package", "m1", "c1", "i1",
              ["It was dropped during the Final match between P and Q,"]⟩],
            [⟨"c1", "i1", "A"⟩]⟩)
        [("7656", ["Z"])] ⟨"7656", "alice", ["k1"]⟩).store
      ⟨"7656", "alice", ["k1"]⟩).store =
      (runAccount (fun _ => PriceResult.ok "1")
        (fun _ => FetchResult.parsed
          ⟨[⟨"E 2019 M Souvenir Package", "m1", "c1", "i1",
              ["It was dropped during the Final match between P and Q,"]⟩],
            [⟨"c1", "i1", "A"⟩]⟩)
        [("7656", ["Z"])] ⟨"7656", "alice", ["k1"]⟩).store := by
  have h := claim9_second_run_idempotent (fun _ => PriceResult.ok "1")
    (fun _ => FetchResult.parsed
      ⟨[⟨"E 2019 M Souvenir Package", "m1", "c1", "i1",
          ["It was dropped during the Final match between P and Q,"]⟩],
        [⟨"c1", "i1", "A"⟩]⟩)
    [("7656", ["Z"])] ⟨"7656", "alice", ["k1"]⟩
    ⟨[⟨"E 2019 M Souvenir Package", "m1", "c1", "i1",
        ["It was dropped during the Final match between P and Q,"]⟩],
      [⟨"c1", "i1", "A"⟩]⟩ rfl (by decide)
  exact ⟨h.1, h.2.2⟩

/-- C4.  When the price lookup reports unavailable (`success: false`) for a
new matched item of a known account, the notification is not suppressed:
exactly one dispatch per delivery token still goes out for that item, and
every dispatch carrying the item's deep-link URL carries the sentinel price
"0" substituted by `getItemPrice`. -/
theorem claim4_price_failure_sentinel (priceOf : String → PriceResult)
    (fetchOf : String → FetchResult) (data : Store) (u : SteamUser) (inv : Inventory)
    (prior : List String) (item : ItemDesc)
    (hfetch : fetchOf u.steam_id = FetchResult.parsed inv)
    (hprior : storeFind data u.steam_id = some prior)
    (hnodup : (matchedDerivedIds inv).Nodup)
    (hitem : item ∈ inv.descriptions)
    (hs : (souvenirExec item.name).isSome = true)
    (hnewid : derivedId inv.assets item ∉ prior)
    (hmi : (getMatchInfo item.descriptions).isSome = true)
    (hpfail : priceOf item.market_hash_name = PriceResult.fail) :
    ((runAccount priceOf fetchOf data u).dispatches.filter
        (fun d => decide (d.data.url =
          profileUrl u.steam_id (derivedId inv.assets item)))).length = u.keys.length ∧
    (∀ d ∈ (runAccount priceOf fetchOf data u).dispatches,
      d.data.url = profileUrl u.steam_id (derivedId inv.assets item) →
        d.data.price = "0") := by
  have hacc : accOf priceOf data u inv =
      processItems u priceOf inv.assets prior false inv.descriptions := by
    unfold accOf
    rw [hprior]
    rfl
  have hdisp : (runAccount priceOf fetchOf data u).dispatches =
      (inv.descriptions.filter (fun it =>
        (souvenirExec it.name).isSome &&
          !(decide (derivedId inv.assets it ∈ prior)))).flatMap
        (mkDispatches u priceOf inv.assets) := by
    rw [runAccount_parsed hfetch]
    show (accOf priceOf data u inv).dispatches = _
    rw [hacc, processItems_dispatches]
  have hitemQ : item ∈ inv.descriptions.filter (fun it =>
      (souvenirExec it.name).isSome && !(decide (derivedId inv.assets it ∈ prior))) :=
    List.mem_filter.mpr ⟨hitem, by simp [hs, hnewid]⟩
  have hQsub : ((inv.descriptions.filter (fun it =>
      (souvenirExec it.name).isSome &&
        !(decide (derivedId inv.assets it ∈ prior)))).map (derivedId inv.assets)).Nodup := by
    have hsplit : inv.descriptions.filter (fun it =>
        (souvenirExec it.name).isSome && !(decide (derivedId inv.assets it ∈ prior))) =
        (inv.descriptions.filter (fun it => (souvenirExec it.name).isSome)).filter
          (fun it => !(decide (derivedId inv.assets it ∈ prior))) := by
      rw [List.filter_filter]
      exact List.filter_congr (fun a _ => by rw [Bool.and_comm])
    rw [hsplit]
    exact List.Nodup.sublist
      (List.Sublist.map (derivedId inv.assets) (List.filter_sublist _)) hnodup
  constructor
  · rw [hdisp, flatMap_filter_url u priceOf inv.assets _ _ hQsub item hitemQ rfl]
    exact mkDispatches_length hs hmi
  · intro d hd hurl
    rw [hdisp] at hd
    obtain ⟨it', hit', hd'⟩ := List.mem_flatMap.mp hd
    have hurl' := mkDispatches_mem_url hd'
    have hideq : derivedId inv.assets it' = derivedId inv.assets item :=
      profileUrl_inj (hurl'.symm.trans hurl)
    obtain ⟨hmem', hp'⟩ := List.mem_filter.mp hit'
    simp only [Bool.and_eq_true, Bool.not_eq_true', decide_eq_false_iff_not] at hp'
    have hit'm : it' ∈ inv.descriptions.filter
        (fun it => (souvenirExec it.name).isSome) :=
      List.mem_filter.mpr ⟨hmem', hp'.1⟩
    have hitm : item ∈ inv.descriptions.filter
        (fun it => (souvenirExec it.name).isSome) :=
      List.mem_filter.mpr ⟨hitem, hs⟩
    have : it' = item := nodup_map_mem_inj hnodup hit'm hitm hideq
    subst this
    rw [mkDispatches_mem_price hd', hpfail]
    rfl

/-- Witness for C4: one new item on a known account whose price lookup
fails; both tokens still get a dispatch and it carries price "0". -/
theorem claim4_witness :
    ((runAccount (fun _ => PriceResult.fail)
      (fun _ => FetchResult.parsed
        ⟨[⟨"E 2019 M Souvenir Package", "m1", "c1", "i1",
            ["It was dropped during the Final match between P and Q,"]⟩],
          [⟨"c1", "i1", "A"⟩]⟩)
      [("7656", ["Z"])] ⟨"7656", "alice", ["k1", "k2"]⟩).dispatches.filter
        (fun d => decide (d.data.url = profileUrl "7656" "A"))).length = 2 := by
  have h := claim4_price_failure_sentinel (fun _ => PriceResult.fail)
    (fun _ => FetchResult.parsed
      ⟨[⟨"E 2019 M Souvenir Package", "m1", "c1", "i1",
          ["It was dropped during the Final match between P and Q,"]⟩],
        [⟨"c1", "i1", "A"⟩]⟩)
    [("7656", ["Z"])] ⟨"7656", "alice", ["k1", "k2"]⟩
    ⟨[⟨"E 2019 M Souvenir Package", "m1", "c1", "i1",
        ["It was dropped during the Final match between P and Q,"]⟩],
      [⟨"c1", "i1", "A"⟩]⟩
    ["Z"] ⟨"E 2019 M Souvenir Package", "m1", "c1", "i1",
      ["It was dropped during the Final match between P and Q,"]⟩
    rfl rfl (by decide) (by decide) (by decide) (by decide) (by decide) rfl
  have h1 := h.1
  have hder : derivedId [⟨"c1", "i1", "A"⟩]
      ⟨"E 2019 M Souvenir Package", "m1", "c1", "i1",
        ["It was dropped during the Final match between P and Q,"]⟩ = "A" := by decide
  rw [hder] at h1
  exact h1

/-- C5.  The classifier accepts exactly the names with an end-anchored
decomposition `⟨event⟩ ⟨4-digit year⟩ ⟨location⟩ Souvenir Package`; in
particular every accepted name ends with the literal `" Souvenir Package"`,
so a name that merely contains the pattern followed by further text is
rejected; and the item loop builds the stored entry from matching items only
and every dispatched notification originates from a matching item. -/
theorem claim5_trailing_anchor_classifier :
    (∀ name : String, (souvenirExec name).isSome = true ↔
      ∃ p y g3 : List Char, name.data = p ++ ' ' :: (y ++ ' ' :: (g3 ++ tailLit)) ∧
        y.length = 4 ∧ y.all Char.isDigit = true ∧ g3.all isDotChar = true) ∧
    (∀ name : String, (souvenirExec name).isSome = true → tailLit <:+ name.data) ∧
    (∀ (u : SteamUser) (priceOf : String → PriceResult) (assets : List Asset)
        (savedItems : List String) (newUser : Bool) (items : List ItemDesc),
      (processItems u priceOf assets savedItems newUser items).entry =
        (items.filter (fun it => (souvenirExec it.name).isSome)).map (derivedId assets) ∧
      ∀ d ∈ (processItems u priceOf assets savedItems newUser items).dispatches,
        ∃ it ∈ items, (souvenirExec it.name).isSome = true ∧
          d.data.url = profileUrl u.steam_id (derivedId assets it)) := by
  refine ⟨souvenirExec_isSome_iff, fun name h => souvenirExec_isSome_suffix h, ?_⟩
  intro u priceOf assets savedItems newUser items
  refine ⟨processItems_entry u priceOf assets savedItems newUser items, ?_⟩
  intro d hd
  cases newUser
  · rw [processItems_dispatches] at hd
    obtain ⟨it, hit, hd'⟩ := List.mem_flatMap.mp hd
    obtain ⟨hmem, hp⟩ := List.mem_filter.mp hit
    simp only [Bool.and_eq_true] at hp
    exact ⟨it, hmem, hp.1, mkDispatches_mem_url hd'⟩
  · rw [processItems_dispatches_newUser] at hd
    cases hd

/-- Witness for C5: a concrete accepted name is certified to end in the
literal `" Souvenir Package"` by the theorem. -/
theorem claim5_witness :
    tailLit <:+ ("ESL One Katowice 2019 Dust II Souvenir Package").data :=
  claim5_trailing_anchor_classifier.2.1 "ESL One Katowice 2019 Dust II Souvenir Package"
    (by decide)

/-- C6 (divergence with the spec).  A new matched item on a known account
whose description text has no line matching `REGEX_MATCH` makes the payload
build dereference the `null` from `getMatchInfo` (`matchInfo.team1`, a
`TypeError`): the source crashes instead of gracefully omitting the
tier/team fields; the item is recorded in the crash list, nothing is
dispatched for it, and the save point after the dispatch loop is never
reached. -/
theorem claim6_missing_match_context_crashes :
    getMatchInfo ([] : List String) = none ∧
    (runAccount (fun _ => PriceResult.ok "1")
      (fun _ => FetchResult.parsed
        ⟨[⟨"E 2019 M Souvenir Package", "m1", "c1", "i1", []⟩], [⟨"c1", "i1", "A"⟩]⟩)
      [("7656", ["Z"])] ⟨"7656", "alice", ["k1"]⟩).crashes =
      ["E 2019 M Souvenir Package"] ∧
    (runAccount (fun _ => PriceResult.ok "1")
      (fun _ => FetchResult.parsed
        ⟨[⟨"E 2019 M Souvenir Package", "m1", "c1", "i1", []⟩], [⟨"c1", "i1", "A"⟩]⟩)
      [("7656", ["Z"])] ⟨"7656", "alice", ["k1"]⟩).dispatches = [] := by
  refine ⟨rfl, by decide, by decide⟩

/-- C7 counterexample.  Two distinct items of one snapshot can receive the
same derived id under both derivations used by the sources: with no matching
asset record, `getAssetId` yields `undefined` for both pairs; and
`part_002`'s `parseInt(classid + instanceid).toString(16)` collides on
concatenation (`"1" + "23"` and `"12" + "3"` both hash to `"7b"`). -/
theorem claim7_counterexample :
    (derivedId [] ⟨"n1", "m1", "1", "2", []⟩ = derivedId [] ⟨"n2", "m2", "3", "4", []⟩ ∧
      (⟨"n1", "m1", "1", "2", []⟩ : ItemDesc) ≠ ⟨"n2", "m2", "3", "4", []⟩) ∧
    (hashItemId "1" "23" = hashItemId "12" "3" ∧
      ((("1" : String), ("23" : String)) ≠ (("12" : String), ("3" : String)))) := by
  refine ⟨⟨by decide, by decide⟩, ⟨by decide, by decide⟩⟩

/-- C7 as amended.  The lookup derivation is a pure function of the asset
list and the `(classid, instanceid)` pair, and it is injective on the pairs
of one snapshot provided every pair is covered by some asset record and the
asset records carry pairwise-distinct `assetid`s; without that coverage two
unmatched pairs both derive the `undefined` id. -/
theorem claim7_amended_unique_when_covered (assets : List Asset)
    (hinj : ∀ a1 ∈ assets, ∀ a2 ∈ assets, a1.assetid = a2.assetid → a1 = a2)
    (c1 i1 c2 i2 : String)
    (h1 : ∃ a ∈ assets, a.instanceid = i1 ∧ a.classid = c1)
    (h2 : ∃ a ∈ assets, a.instanceid = i2 ∧ a.classid = c2)
    (heq : getAssetId assets c1 i1 = getAssetId assets c2 i2) :
    c1 = c2 ∧ i1 = i2 := by
  have hs1 : (assets.find? (fun a => a.instanceid = i1 && a.classid = c1)).isSome = true := by
    rw [List.find?_isSome]
    obtain ⟨a, ha, hai, hac⟩ := h1
    exact ⟨a, ha, by simp [hai, hac]⟩
  have hs2 : (assets.find? (fun a => a.instanceid = i2 && a.classid = c2)).isSome = true := by
    rw [List.find?_isSome]
    obtain ⟨a, ha, hai, hac⟩ := h2
    exact ⟨a, ha, by simp [hai, hac]⟩
  obtain ⟨a1, he1⟩ := Option.isSome_iff_exists.mp hs1
  obtain ⟨a2, he2⟩ := Option.isSome_iff_exists.mp hs2
  have hp1 := List.find?_some he1
  have hp2 := List.find?_some he2
  simp only [Bool.and_eq_true, decide_eq_true_eq] at hp1 hp2
  have hm1 := List.mem_of_find?_eq_some he1
  have hm2 := List.mem_of_find?_eq_some he2
  unfold getAssetId at heq
  rw [he1, he2] at heq
  simp only [Option.map_some', Option.some.injEq] at heq
  have : a1 = a2 := hinj a1 hm1 a2 hm2 heq
  subst this
  exact ⟨hp1.2 ▸ hp2.2 ▸ rfl, hp1.1 ▸ hp2.1 ▸ rfl⟩

/-- Witness for the amended C7: on a snapshot with two covered pairs and
distinct assetids, equal derived ids force equal pairs. -/
theorem claim7_witness :
    ("c1" : String) = "c1" ∧ ("i1" : String) = "i1" :=
  claim7_amended_unique_when_covered [⟨"c1", "i1", "A"⟩, ⟨"c2", "i2", "B"⟩]
    (by decide) "c1" "i1" "c1" "i1"
    ⟨⟨"c1", "i1", "A"⟩, by decide, by decide, by decide⟩
    ⟨⟨"c1", "i1", "A"⟩, by decide, by decide, by decide⟩
    rfl

/-- One account's callback never touches another account's entry of the
save file. -/
theorem runAccount_store_frame (priceOf : String → PriceResult)
    (fetchOf : String → FetchResult) (d : Store) (b : SteamUser) (x : String)
    (hx : x ≠ b.steam_id) :
    storeFind (runAccount priceOf fetchOf d b).store x = storeFind d x := by
  unfold runAccount
  cases fetchOf b.steam_id with
  | parsed inv =>
    simp only
    split
    · exact storeFind_storeSet_other d b.steam_id x _ hx
    · rfl
  | parsedNull => rfl
  | unparsable body => rfl

/-- Unfolding one step of the account loop of a cycle. -/
theorem runCycle_cons (priceOf : String → PriceResult) (fetchOf : String → FetchResult)
    (d : Store) (u : SteamUser) (rest : List SteamUser) :
    runCycle priceOf fetchOf d (u :: rest) =
      ((runCycle priceOf fetchOf (runAccount priceOf fetchOf d u).store rest).1,
        runAccount priceOf fetchOf d u ::
          (runCycle priceOf fetchOf (runAccount priceOf fetchOf d u).store rest).2) :=
  rfl

/-- C8 counterexample.  A fetch whose body does not parse (network error or
malformed payload) leaves the state untouched but logs
`"Error: " + body` — an error entry that does not name the account — and no
warning at all, contradicting the claim that every fetch failure logs a
warning naming the account. -/
theorem claim8_counterexample :
    (runAccount (fun _ => PriceResult.ok "1")
      (fun _ => FetchResult.unparsable "garbage")
      [("7656", ["A"])] ⟨"7656", "alice", ["k1"]⟩).logs =
      [LogEvent.error "Error: garbage"] ∧
    ((runAccount (fun _ => PriceResult.ok "1")
      (fun _ => FetchResult.unparsable "garbage")
      [("7656", ["A"])] ⟨"7656", "alice", ["k1"]⟩).logs.filter LogEvent.isWarning) =
      [] := by
  exact ⟨rfl, rfl⟩

/-- C8 as amended.  When the inventory fetch for account `a` fails (the body
is unparsable, so the callback never runs, or it parses to `null`), `a`'s
part of the cycle leaves the whole store untouched and dispatches nothing;
the rest of the cycle proceeds exactly as if it had started from the same
store, and `a`'s stored entry survives the other account's processing; the
warning naming the account is logged in the `null`-response
(private-inventory) case, while an unparsable body logs an error carrying
the raw body instead. -/
theorem claim8_amended_fetch_failure_isolation (priceOf : String → PriceResult)
    (fetchOf : String → FetchResult) (data : Store) (a b : SteamUser)
    (hne : a.steam_id ≠ b.steam_id)
    (hfail : ∀ inv, fetchOf a.steam_id ≠ FetchResult.parsed inv) :
    (runAccount priceOf fetchOf data a).store = data ∧
    (runAccount priceOf fetchOf data a).dispatches = [] ∧
    (runCycle priceOf fetchOf data [a, b]).1 = (runCycle priceOf fetchOf data [b]).1 ∧
    (runCycle priceOf fetchOf data [a, b]).2 =
      runAccount priceOf fetchOf data a :: (runCycle priceOf fetchOf data [b]).2 ∧
    storeFind (runCycle priceOf fetchOf data [a, b]).1 a.steam_id =
      storeFind data a.steam_id ∧
    (fetchOf a.steam_id = FetchResult.parsedNull →
      (runAccount priceOf fetchOf data a).logs =
        [LogEvent.warning ("Warning: Failed to fetch inventory for " ++ a.username ++
          ", it might be set to private")]) := by
  have hstore : (runAccount priceOf fetchOf data a).store = data ∧
      (runAccount priceOf fetchOf data a).dispatches = [] := by
    unfold runAccount
    cases hf : fetchOf a.steam_id with
    | parsed inv => exact absurd hf (hfail inv)
    | parsedNull => exact ⟨rfl, rfl⟩
    | unparsable body => exact ⟨rfl, rfl⟩
  have hcycle : runCycle priceOf fetchOf data [a, b] =
      ((runCycle priceOf fetchOf data [b]).1,
        runAccount priceOf fetchOf data a :: (runCycle priceOf fetchOf data [b]).2) := by
    rw [runCycle_cons, hstore.1]
  refine ⟨hstore.1, hstore.2, by rw [hcycle], by rw [hcycle], ?_, ?_⟩
  · rw [hcycle]
    show storeFind (runCycle priceOf fetchOf data [b]).1 a.steam_id = _
    have hb : (runCycle priceOf fetchOf data [b]).1 =
        (runAccount priceOf fetchOf data b).store := rfl
    rw [hb]
    exact runAccount_store_frame priceOf fetchOf data b a.steam_id hne
  · intro hnull
    unfold runAccount
    rw [hnull]

/-- Witness for the amended C8: account `alice` with a private (null)
inventory is skipped with the warning naming her, while `bob` still runs. -/
theorem claim8_witness :
    (runAccount (fun _ => PriceResult.ok "1")
      (fun s => if s = "1111" then FetchResult.parsedNull
        else FetchResult.parsed ⟨[], []⟩)
      [("1111", ["A"])] ⟨"1111", "alice", ["k1"]⟩).store = [("1111", ["A"])] ∧
    (runAccount (fun _ => PriceResult.ok "1")
      (fun s => if s = "1111" then FetchResult.parsedNull
        else FetchResult.parsed ⟨[], []⟩)
      [("1111", ["A"])] ⟨"1111", "alice", ["k1"]⟩).logs =
      [LogEvent.warning
        "Warning: Failed to fetch inventory for alice, it might be set to private"] := by
  have h := claim8_amended_fetch_failure_isolation (fun _ => PriceResult.ok "1")
    (fun s => if s = "1111" then FetchResult.parsedNull
      else FetchResult.parsed ⟨[], []⟩)
    [("1111", ["A"])] ⟨"1111", "alice", ["k1"]⟩ ⟨"2222", "bob", ["k2"]⟩
    (by decide) (by intro inv h; simp at h)
  exact ⟨h.1, h.2.2.2.2.2 (by simp)⟩

/-- C10 (implicit behavior).  When no asset record carries an item's
`(classid, instanceid)` pair, `getAssetId` returns JavaScript `undefined`;
the matched item is nonetheless recorded in the account's state under the
coerced key `"undefined"` and the notification deep-link URL embeds
`...#730_2_undefined` — the item is not skipped and no error is raised. -/
theorem claim10_undefined_asset_id (priceOf : String → PriceResult)
    (fetchOf : String → FetchResult) (data : Store) (u : SteamUser) (inv : Inventory)
    (prior : List String) (item : ItemDesc) (k : String)
    (hfetch : fetchOf u.steam_id = FetchResult.parsed inv)
    (hprior : storeFind data u.steam_id = some prior)
    (hitem : item ∈ inv.descriptions)
    (hs : (souvenirExec item.name).isSome = true)
    (hnomatch : ∀ a ∈ inv.assets,
      ¬(a.instanceid = item.instanceid ∧ a.classid = item.classid))
    (hnew : "undefined" ∉ prior)
    (hmi : (getMatchInfo item.descriptions).isSome = true)
    (hk : k ∈ u.keys) :
    getAssetId inv.assets item.classid item.instanceid = none ∧
    "undefined" ∈ matchedDerivedIds inv ∧
    storeFind (runAccount priceOf fetchOf data u).store u.steam_id =
      some (matchedDerivedIds inv) ∧
    ∃ d ∈ (runAccount priceOf fetchOf data u).dispatches,
      d.key = k ∧ d.data.url = profileUrl u.steam_id "undefined" := by
  have hnone : getAssetId inv.assets item.classid item.instanceid = none := by
    unfold getAssetId
    rw [List.find?_eq_none.mpr]
    · rfl
    · intro a ha
      simp only [Bool.and_eq_true, decide_eq_true_eq, not_and]
      intro h1 h2
      exact hnomatch a ha ⟨h1, h2⟩
  have hder : derivedId inv.assets item = "undefined" := by
    unfold derivedId
    rw [hnone]
    rfl
  have hnd : derivedId inv.assets item ∉ prior := by
    rw [hder]
    exact hnew
  have hmem : "undefined" ∈ matchedDerivedIds inv := by
    rw [← hder]
    exact List.mem_map_of_mem _ (List.mem_filter.mpr ⟨hitem, hs⟩)
  refine ⟨hnone, hmem, ?_, ?_⟩
  · exact (claim3_amended_snapshot priceOf fetchOf data u inv prior hfetch hprior).1
      ⟨item, hitem, hs, hnd, hmi⟩
  · have hacc : accOf priceOf data u inv =
        processItems u priceOf inv.assets prior false inv.descriptions := by
      unfold accOf
      rw [hprior]
      rfl
    have hdisp : (runAccount priceOf fetchOf data u).dispatches =
        (inv.descriptions.filter (fun it =>
          (souvenirExec it.name).isSome &&
            !(decide (derivedId inv.assets it ∈ prior)))).flatMap
          (mkDispatches u priceOf inv.assets) := by
      rw [runAccount_parsed hfetch]
      show (accOf priceOf data u inv).dispatches = _
      rw [hacc, processItems_dispatches]
    have hitemQ : item ∈ inv.descriptions.filter (fun it =>
        (souvenirExec it.name).isSome && !(decide (derivedId inv.assets it ∈ prior))) :=
      List.mem_filter.mpr ⟨hitem, by simp [hs, hnd]⟩
    obtain ⟨⟨ev, yr, mp⟩, he⟩ := Option.isSome_iff_exists.mp hs
    obtain ⟨mi, hie⟩ := Option.isSome_iff_exists.mp hmi
    refine ⟨⟨k, ⟨u.username, getItemPrice (priceOf item.market_hash_name),
      mi.team1, mi.team2, ev, yr, mp,
      profileUrl u.steam_id (derivedId inv.assets item)⟩⟩, ?_, rfl, ?_⟩
    · rw [hdisp]
      refine List.mem_flatMap.mpr ⟨item, hitemQ, ?_⟩
      unfold mkDispatches
      rw [he, hie]
      exact List.mem_map_of_mem _ hk
    · show profileUrl u.steam_id (derivedId inv.assets item) = _
      rw [hder]

/-- Witness for C10: a matched item whose pair has no asset record is stored
under `"undefined"` and its single token's dispatch links to
`...#730_2_undefined`. -/
theorem claim10_witness :
    getAssetId [] "c1" "i1" = none ∧
    ∃ d ∈ (runAccount (fun _ => PriceResult.ok "1")
      (fun _ => FetchResult.parsed
        ⟨[⟨"E 2019 M Souvenir Package", "m1", "c1", "i1",
            ["It was dropped during the Final match between P and Q,"]⟩], []⟩)
      [("7656", ["Z"])] ⟨"7656", "alice", ["k1"]⟩).dispatches,
      d.key = "k1" ∧ d.data.url = profileUrl "7656" "undefined" := by
  have h := claim10_undefined_asset_id (fun _ => PriceResult.ok "1")
    (fun _ => FetchResult.parsed
      ⟨[⟨"E 2019 M Souvenir Package", "m1", "c1", "i1",
          ["It was dropped during the Final match between P and Q,"]⟩], []⟩)
    [("7656", ["Z"])] ⟨"7656", "alice", ["k1"]⟩
    ⟨[⟨"E 2019 M Souvenir Package", "m1", "c1", "i1",
        ["It was dropped during the Final match between P and Q,"]⟩], []⟩
    ["Z"] ⟨"E 2019 M Souvenir Package", "m1", "c1", "i1",
      ["It was dropped during the Final match between P and Q,"]⟩ "k1"
    rfl rfl (by decide) (by decide) (by decide) (by decide) (by decide) (by decide)
  exact ⟨h.1, h.2.2.2⟩
